import Mathlib

/-!
Shallow embedding of the CMM (contiguous memory manager) wrapper of
`libax_sys_cpp` (source file `cpp/libax_sys_cpp/src/cmm.cc`) and proofs of
the specification claims about it.

Machine integers: `size_t`, `uintptr_t` and `AX_U64` are 64-bit unsigned;
they are modelled as `Nat` with explicit reduction `% W` (`W = 2^64`) at
every arithmetic step the C++ performs in those types.  `AX_U32` lengths
are bounded by `0xFFFFFFFF`.  Pointers are modelled as `Nat`, with `0`
standing for `nullptr`.  The AXERA platform primitives (`AX_SYS_*`) are a
black box, modelled by an explicit `Platform` record of oracles; the
wrapper's own guards (such as the 32-bit size guard inside `DoMmap`) are
translated from the source.
-/

namespace axsys

/-- Width of `size_t` / `uintptr_t` / `AX_U64`: arithmetic wraps mod `W`. -/
def W : Nat := 2 ^ 64

/-- The value `SIZE_MAX`, used by `Flush`/`Invalidate` as a to-end sentinel. -/
def SIZE_MAX : Nat := W - 1

/-- Cache mode of a mapping (`axsys::CacheMode`). -/
inductive CacheMode where
  | kNonCached
  | kCached
deriving DecidableEq, Repr

/-- Error codes of `axsys/error.hpp` (the ones reachable from `cmm.cc`). -/
inductive ErrorCode where
  | kSuccess
  | kInvalidArgument
  | kOutOfRange
  | kNotInitialized
  | kAlreadyInitialized
  | kAllocationFailed
  | kMemoryTooLarge
  | kNoAllocation
  | kNotOwned
  | kReferencesRemain
  | kMemFreeFailed
  | kMapFailed
  | kUnmapFailed
  | kFlushFailed
  | kInvalidateFailed
  | kViewRegistrationFailed
  | kUnknown
deriving DecidableEq, Repr

/-- The success-or-error result type (`axsys::Result<T>`); the lazily built
diagnostic string is dropped, only the error code is modelled. -/
abbrev Result (α : Type) := Except ErrorCode α

/-- Registry record of one open view (`ViewEntry` in `cmm.cc`). -/
structure ViewEntry where
  addr : Nat
  size : Nat
  offset : Nat
  mode : CacheMode
deriving DecidableEq, Repr

/-- The shared physical allocation (`Allocation` in `cmm.cc`); the mutex is
not modelled (operations are embedded as atomic steps). -/
structure Allocation where
  phy : Nat
  size : Nat
  mode : CacheMode
  views : List ViewEntry
  owned : Bool
  base_vir : Nat
deriving DecidableEq, Repr

/-- Oracles for the AXERA platform primitives (`AX_SYS_*`), treated as a
black box.  `memAlloc` returns `some (phy, vir)` on a zero return code;
`mmap` returns the virtual address (`0` models `NULL`); the cache oracles
return `true` on a zero return code.  The `Bool` argument of `mmap` selects
the `Fast` variant. -/
structure Platform where
  memAlloc : Nat → CacheMode → Option (Nat × Nat)
  mmap : Nat → Nat → CacheMode → Bool → Nat
  mflushCache : Nat → Nat → Nat → Bool
  minvalidateCache : Nat → Nat → Nat → Bool

/-- `DoMmap` of `cmm.cc`: guards the 32-bit length limit itself, then calls
the platform map primitive (cached or non-cached chosen by `mode`). -/
def DoMmap (P : Platform) (phys size : Nat) (mode : CacheMode) : Nat :=
  if size > 0xFFFFFFFF then 0 else P.mmap phys size mode false

/-- `DoMmapFast` of `cmm.cc`: as `DoMmap` but using the fast-path mapping. -/
def DoMmapFast (P : Platform) (phys size : Nat) (mode : CacheMode) : Nat :=
  if size > 0xFFFFFFFF then 0 else P.mmap phys size mode true

/-- State of a live `CmmView::Impl`: the shared allocation (snapshot of the
`shared_ptr` target, `none` models a null pointer), the absolute offset, the
virtual base pointer (`0` models `nullptr`), the window size and the cache
mode. -/
structure ViewImpl where
  alloc : Option Allocation
  offset : Nat
  data : Nat
  size : Nat
  mode : CacheMode
deriving DecidableEq, Repr

/-- A `CmmView` handle: `none` models `impl_ == nullptr`. -/
abbrev CmmView := Option ViewImpl

/-- `CmmView::Data()`. -/
def CmmView.Data : CmmView → Nat
  | none => 0
  | some impl => impl.data

/-- `CmmView::Size()`. -/
def CmmView.Size : CmmView → Nat
  | none => 0
  | some impl => impl.size

/-- `CmmView::Mode()`. -/
def CmmView.Mode : CmmView → CacheMode
  | none => CacheMode.kNonCached
  | some impl => impl.mode

/-- `CmmView::operator bool()`. -/
def CmmView.toBool : CmmView → Bool
  | none => false
  | some impl => impl.data ≠ 0 && impl.size > 0

/-- The chunking loop shared by `CmmView::Flush` and `CmmView::Invalidate`
(lines 160-172 resp. 202-215 of `cmm.cc`): while bytes remain, issue one
platform call of at most `0xFFFFFFFF` bytes, advancing the physical address
and the virtual pointer together.  Returns whether every call succeeded,
and the list of `(phys, virt, chunk)` calls issued. -/
def cacheOpLoop (ok : Nat → Nat → Nat → Bool) (phys v remain : Nat) :
    Bool × List (Nat × Nat × Nat) :=
  if _h : remain = 0 then (true, [])
  else
    let chunk := if remain > 0xFFFFFFFF then 0xFFFFFFFF else remain
    if ok phys v chunk then
      let rest := cacheOpLoop ok ((phys + chunk) % W) ((v + chunk) % W) (remain - chunk)
      (rest.1, (phys, v, chunk) :: rest.2)
    else
      (false, [(phys, v, chunk)])
termination_by remain
decreasing_by
  show remain - (if remain > 0xFFFFFFFF then 0xFFFFFFFF else remain) < remain
  split <;> omega

/-- The length resolution of `Flush`/`Invalidate` (lines 146-150 resp.
188-192 of `cmm.cc`): the `SIZE_MAX` sentinel, or a (wrapping) end past the
view, resolves to the distance from `offset` to the end of the view. -/
def resolvedLen (viewSize offset size : Nat) : Nat :=
  if size = SIZE_MAX ∨ (offset + size) % W > viewSize then viewSize - offset
  else size

/-- `CmmView::Flush(offset, size)` together with the list of platform cache
calls it issued (the result state of the view itself is unchanged: the
method assigns to no field of `impl_`). -/
def CmmView.FlushCalls (P : Platform) (view : CmmView) (offset size : Nat) :
    Result Unit × List (Nat × Nat × Nat) :=
  match view with
  | none => (.error .kNotInitialized, [])
  | some impl =>
    match impl.alloc with
    | none => (.error .kNotInitialized, [])
    | some a =>
      if impl.data = 0 then (.error .kNotInitialized, [])
      else if offset ≥ impl.size then (.error .kOutOfRange, [])
      else
        let actual_size := resolvedLen impl.size offset size
        if actual_size = 0 then (.error .kInvalidArgument, [])
        else
          let phys := (a.phy + impl.offset + offset) % W
          let v := (impl.data + offset) % W
          let r := cacheOpLoop P.mflushCache phys v actual_size
          (if r.1 then .ok () else .error .kFlushFailed, r.2)

/-- `CmmView::Flush(offset, size)`: just the returned `Result<void>`. -/
def CmmView.Flush (P : Platform) (view : CmmView) (offset size : Nat) :
    Result Unit :=
  (CmmView.FlushCalls P view offset size).1

/-- `CmmView::Invalidate(offset, size)` together with the list of platform
cache calls it issued. -/
def CmmView.InvalidateCalls (P : Platform) (view : CmmView) (offset size : Nat) :
    Result Unit × List (Nat × Nat × Nat) :=
  match view with
  | none => (.error .kNotInitialized, [])
  | some impl =>
    match impl.alloc with
    | none => (.error .kNotInitialized, [])
    | some a =>
      if impl.data = 0 then (.error .kNotInitialized, [])
      else if offset ≥ impl.size then (.error .kOutOfRange, [])
      else
        let actual_size := resolvedLen impl.size offset size
        if actual_size = 0 then (.error .kInvalidArgument, [])
        else
          let phys := (a.phy + impl.offset + offset) % W
          let v := (impl.data + offset) % W
          let r := cacheOpLoop P.minvalidateCache phys v actual_size
          (if r.1 then .ok () else .error .kInvalidateFailed, r.2)

/-- `CmmView::Invalidate(offset, size)`: just the returned `Result<void>`. -/
def CmmView.Invalidate (P : Platform) (view : CmmView) (offset size : Nat) :
    Result Unit :=
  (CmmView.InvalidateCalls P view offset size).1

/-- Body of `CmmBuffer::MapView` / `MapViewFast` (lines 540-582 resp.
606-648 of `cmm.cc`) once the shared allocation `a` has been captured:
range check against `a.size` (size_t addition, hence mod `W`), platform
map, then registration of the new `ViewEntry`.  Returns the result and the
allocation after the call (unchanged on error). -/
def bufferMapViewCore (P : Platform) (fast : Bool) (a : Allocation)
    (offset size : Nat) (mode : CacheMode) : Result ViewImpl × Allocation :=
  if (offset + size) % W > a.size then (.error .kOutOfRange, a)
  else
    let v := (if fast then DoMmapFast else DoMmap) P ((a.phy + offset) % W) size mode
    if v = 0 then (.error .kMapFailed, a)
    else
      let a2 := { a with views := a.views ++ [⟨v, size, offset, mode⟩] }
      (.ok ⟨some a2, offset, v, size, mode⟩, a2)

/-- `CmmView::MapView` / `MapViewFast` (lines 219-259 resp. 261-301 of
`cmm.cc`): null checks (`kNoAllocation`), range check against the view's own
window, absolute offset `impl_->offset + offset` (size_t, mod `W`), platform
map, then registration.  Returns the result and the shared allocation after
the call (`none` when the view had none; unchanged on error). -/
def CmmView.MapViewCore (P : Platform) (fast : Bool) (view : CmmView)
    (offset size : Nat) (mode : CacheMode) : Result ViewImpl × Option Allocation :=
  match view with
  | none => (.error .kNoAllocation, none)
  | some impl =>
    match impl.alloc with
    | none => (.error .kNoAllocation, none)
    | some a =>
      if (offset + size) % W > impl.size then (.error .kOutOfRange, some a)
      else
        let abs_off := (impl.offset + offset) % W
        let v := (if fast then DoMmapFast else DoMmap) P ((a.phy + abs_off) % W) size mode
        if v = 0 then (.error .kMapFailed, some a)
        else
          let a2 := { a with views := a.views ++ [⟨v, size, abs_off, mode⟩] }
          (.ok ⟨some a2, abs_off, v, size, mode⟩, some a2)

/-- `CmmView::Reset` (lines 105-132 of `cmm.cc`), acting on the view handle
and on the shared allocation `a` (the target of `impl_->alloc`): if the view
was live and mapped, the first registry entry whose address equals the
view's data pointer is removed; the handle always becomes null. -/
def eraseFirstAddr (addr : Nat) : List ViewEntry → List ViewEntry
  | [] => []
  | e :: rest => if e.addr = addr then rest else e :: eraseFirstAddr addr rest

/-- `CmmView::Reset`: returns the view handle and the shared allocation
after the call. -/
def CmmView.Reset (view : CmmView) (a : Allocation) : CmmView × Allocation :=
  match view with
  | none => (none, a)
  | some impl =>
    if impl.data ≠ 0 ∧ impl.alloc.isSome then
      (none, { a with views := eraseFirstAddr impl.data a.views })
    else (none, a)

/-- State of one `CmmBuffer` handle together with the observable platform
free events: `impl` models `impl_ != nullptr`; `alloc` models
`impl_->alloc` (the shared allocation's fields); `refs` models
`impl_->alloc.use_count()` — the buffer's own reference plus one per live
view sharing the allocation; `memFreeCalls` counts the `AX_SYS_MemFree`
invocations performed by the allocation's deleter. -/
structure BufferWorld where
  impl : Bool
  alloc : Option Allocation
  refs : Nat
  memFreeCalls : Nat
deriving DecidableEq, Repr

/-- `CmmBuffer::Free` (lines 442-469 of `cmm.cc`): error ladder
`kNoAllocation` (null impl or no allocation), `kNotOwned`,
`kReferencesRemain` (`use_count() > 1`); on success the last reference is
dropped, running the deleter, which calls `AX_SYS_MemFree` exactly when the
allocation is owned with a nonzero physical address. -/
def CmmBuffer.Free (w : BufferWorld) : Result Unit × BufferWorld :=
  if !w.impl then (.error .kNoAllocation, w)
  else
    match w.alloc with
    | none => (.error .kNoAllocation, w)
    | some a =>
      if !a.owned then (.error .kNotOwned, w)
      else if w.refs > 1 then (.error .kReferencesRemain, w)
      else
        let freed := if a.owned ∧ a.phy ≠ 0 then 1 else 0
        (.ok (), { impl := w.impl, alloc := none, refs := 0,
                   memFreeCalls := w.memFreeCalls + freed })

/-- `CmmBuffer::AttachExternal` (lines 471-493 of `cmm.cc`): creates the
impl if null, fails with `kAlreadyInitialized` when an allocation is
already held, otherwise installs a non-owned allocation (whose deleter
performs no platform free). -/
def CmmBuffer.AttachExternal (w : BufferWorld) (phys size : Nat) :
    Result Unit × BufferWorld :=
  let w1 := if w.impl then w else
    { impl := true, alloc := none, refs := 0, memFreeCalls := w.memFreeCalls }
  match w1.alloc with
  | some _ => (.error .kAlreadyInitialized, w1)
  | none =>
    (.ok (), { w1 with
      alloc := some ⟨phys % W, size, CacheMode.kNonCached, [], false, 0⟩,
      refs := 1 })

/-- `CmmBuffer::DetachExternal` (lines 495-517 of `cmm.cc`): fails with
`kNoAllocation` when the impl is null, idle, or the allocation is owned;
`kReferencesRemain` while views remain; on success drops the reference —
the deleter of an attached allocation performs no platform free. -/
def CmmBuffer.DetachExternal (w : BufferWorld) : Result Unit × BufferWorld :=
  if !w.impl then (.error .kNoAllocation, w)
  else
    match w.alloc with
    | none => (.error .kNoAllocation, w)
    | some a =>
      if a.owned then (.error .kNoAllocation, w)
      else if w.refs > 1 then (.error .kReferencesRemain, w)
      else (.ok (), { w with alloc := none, refs := 0 })

/-- `CmmBuffer::MapView` / `MapViewFast` (lines 519-583 resp. 585-649 of
`cmm.cc`) at the world level: `kNotInitialized` on a null impl,
`kNoAllocation` when idle, otherwise `bufferMapViewCore`; a successful
mapping registers the entry and the new view takes one more reference. -/
def CmmBuffer.MapViewW (P : Platform) (fast : Bool) (w : BufferWorld)
    (offset size : Nat) (mode : CacheMode) : Result ViewImpl × BufferWorld :=
  if !w.impl then (.error .kNotInitialized, w)
  else
    match w.alloc with
    | none => (.error .kNoAllocation, w)
    | some a =>
      match bufferMapViewCore P fast a offset size mode with
      | (.error e, _) => (.error e, w)
      | (.ok vi, a2) => (.ok vi, { w with alloc := some a2, refs := w.refs + 1 })

/-- `CmmBuffer::Allocate` (lines 369-440 of `cmm.cc`): creates the impl if
null; `kAlreadyInitialized` when an allocation is already held;
`kMemoryTooLarge` when `size > 0xFFFFFFFF`; `kAllocationFailed` when the
platform allocation fails; otherwise installs the owned allocation and
returns `MapView(0, size, mode)` — the base view. -/
def CmmBuffer.Allocate (P : Platform) (w : BufferWorld) (size : Nat)
    (mode : CacheMode) : Result ViewImpl × BufferWorld :=
  let w1 := if w.impl then w else
    { impl := true, alloc := none, refs := 0, memFreeCalls := w.memFreeCalls }
  match w1.alloc with
  | some _ => (.error .kAlreadyInitialized, w1)
  | none =>
    if size > 0xFFFFFFFF then (.error .kMemoryTooLarge, w1)
    else
      match P.memAlloc size mode with
      | none => (.error .kAllocationFailed, w1)
      | some (phy, vir) =>
        let a : Allocation := ⟨phy % W, size, mode, [], true, vir % W⟩
        let w2 : BufferWorld := { w1 with alloc := some a, refs := 1 }
        CmmBuffer.MapViewW P false w2 0 size mode

/-! Specification-side predicates and concrete fixtures used by the
theorems below. -/

/-- The shared allocation referenced by a view handle (`impl_->alloc`). -/
def CmmView.allocOf : CmmView → Option Allocation
  | none => none
  | some impl => impl.alloc

/-- Chained-coverage predicate: a list of `(phys, virt, chunk)` platform
calls starts at the given addresses and each call begins where the previous
one ended (wrapping 64-bit address arithmetic). -/
def IsChained : Nat → Nat → List (Nat × Nat × Nat) → Prop
  | _, _, [] => True
  | p, v, c :: rest =>
      c.1 = p ∧ c.2.1 = v ∧ IsChained ((p + c.2.2) % W) ((v + c.2.2) % W) rest

/-- The spec's registry invariant: every registered view entry satisfies
`offset + size ≤ Allocation.size` (mathematical, non-wrapping sum). -/
def RegistryInvariant (a : Allocation) : Prop :=
  ∀ e ∈ a.views, e.offset + e.size ≤ a.size

instance (a : Allocation) : Decidable (RegistryInvariant a) :=
  List.decidableBAll _ a.views

/-- A platform on which every primitive succeeds. -/
def okP : Platform :=
  ⟨fun _ _ => some (4096, 8192), fun _ _ _ _ => 12288,
   fun _ _ _ => true, fun _ _ _ => true⟩

/-- A platform whose map primitive always fails (returns `NULL`). -/
def failMmapP : Platform :=
  ⟨fun _ _ => some (4096, 8192), fun _ _ _ _ => 0,
   fun _ _ _ => true, fun _ _ _ => true⟩

/-- A platform whose allocation primitive always fails. -/
def failAllocP : Platform :=
  ⟨fun _ _ => none, fun _ _ _ _ => 12288,
   fun _ _ _ => true, fun _ _ _ => true⟩

/-- A platform whose cache primitives succeed only on chunks of at most two
bytes. -/
def chunk2P : Platform :=
  ⟨fun _ _ => some (4096, 8192), fun _ _ _ _ => 12288,
   fun _ _ c => c ≤ 2, fun _ _ c => c ≤ 2⟩

/-- A platform whose cache primitives always fail. -/
def failCacheP : Platform :=
  ⟨fun _ _ => some (4096, 8192), fun _ _ _ _ => 12288,
   fun _ _ _ => false, fun _ _ _ => false⟩

/-- A two-byte externally attached allocation. -/
def attachAlloc2 : Allocation :=
  ⟨4096, 2, CacheMode.kNonCached, [], false, 0⟩

/-- A buffer world holding `attachAlloc2` with no live views. -/
def attachW2 : BufferWorld :=
  { impl := true, alloc := some attachAlloc2, refs := 1, memFreeCalls := 0 }

/-- A `2^32`-byte externally attached allocation (larger than the 32-bit
per-call map limit) and the world holding it. -/
def attachAlloc4G : Allocation :=
  ⟨4096, 2 ^ 32, CacheMode.kNonCached, [], false, 0⟩

/-- Buffer world holding `attachAlloc4G` with no live views. -/
def attachW4G : BufferWorld :=
  { impl := true, alloc := some attachAlloc4G, refs := 1, memFreeCalls := 0 }

/-- A five-byte owned allocation used to exercise `Flush`/`Invalidate`. -/
def ownAlloc5 : Allocation :=
  ⟨4096, 5, CacheMode.kCached, [⟨256, 5, 0, CacheMode.kCached⟩], true, 8192⟩

/-- A live view of all five bytes of `ownAlloc5`. -/
def view5 : CmmView :=
  some ⟨some ownAlloc5, 0, 256, 5, CacheMode.kCached⟩

/-- A buffer world owning `ownAlloc5` with one live view (the base view). -/
def ownW5 : BufferWorld :=
  { impl := true, alloc := some ownAlloc5, refs := 2, memFreeCalls := 0 }

/-- A buffer world owning `ownAlloc5` whose base view has been reset. -/
def ownW5solo : BufferWorld :=
  { impl := true, alloc := some ownAlloc5, refs := 1, memFreeCalls := 0 }

/-! Helper lemmas about the chunking loop. -/

theorem cacheOpLoop_zero (ok : Nat → Nat → Nat → Bool) (phys v : Nat) :
    cacheOpLoop ok phys v 0 = (true, []) := by
  rw [cacheOpLoop]
  simp

theorem cacheOpLoop_ne_zero (ok : Nat → Nat → Nat → Bool) (phys v remain : Nat)
    (h0 : remain ≠ 0) :
    cacheOpLoop ok phys v remain =
      (if ok phys v (if remain > 0xFFFFFFFF then 0xFFFFFFFF else remain) then
        ((cacheOpLoop ok
            ((phys + (if remain > 0xFFFFFFFF then 0xFFFFFFFF else remain)) % W)
            ((v + (if remain > 0xFFFFFFFF then 0xFFFFFFFF else remain)) % W)
            (remain - (if remain > 0xFFFFFFFF then 0xFFFFFFFF else remain))).1,
         (phys, v, (if remain > 0xFFFFFFFF then 0xFFFFFFFF else remain)) ::
          (cacheOpLoop ok
            ((phys + (if remain > 0xFFFFFFFF then 0xFFFFFFFF else remain)) % W)
            ((v + (if remain > 0xFFFFFFFF then 0xFFFFFFFF else remain)) % W)
            (remain - (if remain > 0xFFFFFFFF then 0xFFFFFFFF else remain))).2)
      else (false, [(phys, v, (if remain > 0xFFFFFFFF then 0xFFFFFFFF else remain))])) := by
  conv_lhs => rw [cacheOpLoop]
  simp only [dif_neg h0]

theorem cacheOpLoop_le_u32 (ok : Nat → Nat → Nat → Bool) (phys v remain : Nat)
    (h0 : remain ≠ 0) (h1 : ¬remain > 0xFFFFFFFF) :
    cacheOpLoop ok phys v remain =
      if ok phys v remain then (true, [(phys, v, remain)])
      else (false, [(phys, v, remain)]) := by
  rw [cacheOpLoop_ne_zero ok phys v remain h0]
  simp only [if_neg h1, Nat.sub_self, cacheOpLoop_zero]

theorem cacheOpLoop_chunk_le (ok : Nat → Nat → Nat → Bool) :
    ∀ remain phys v, ∀ c ∈ (cacheOpLoop ok phys v remain).2,
      1 ≤ c.2.2 ∧ c.2.2 ≤ 0xFFFFFFFF := by
  intro remain
  induction remain using Nat.strong_induction_on with
  | _ remain ih =>
    intro phys v c hc
    rcases Nat.eq_zero_or_pos remain with h0 | h0
    · subst h0; rw [cacheOpLoop_zero] at hc; simp at hc
    · have h0' : remain ≠ 0 := by omega
      rw [cacheOpLoop_ne_zero ok phys v remain h0'] at hc
      set chunk := if remain > 0xFFFFFFFF then 0xFFFFFFFF else remain with hchunk
      have hcb : 1 ≤ chunk ∧ chunk ≤ 0xFFFFFFFF := by rw [hchunk]; split <;> omega
      by_cases hok : ok phys v chunk
      · rw [if_pos hok] at hc
        simp only [List.mem_cons] at hc
        rcases hc with rfl | hc
        · exact hcb
        · exact ih (remain - chunk) (by omega) ((phys + chunk) % W) ((v + chunk) % W) c hc
      · rw [if_neg hok] at hc
        simp only [List.mem_singleton] at hc
        subst hc
        exact hcb

theorem cacheOpLoop_chained (ok : Nat → Nat → Nat → Bool) :
    ∀ remain phys v, IsChained phys v (cacheOpLoop ok phys v remain).2 := by
  intro remain
  induction remain using Nat.strong_induction_on with
  | _ remain ih =>
    intro phys v
    rcases Nat.eq_zero_or_pos remain with h0 | h0
    · subst h0; rw [cacheOpLoop_zero]; trivial
    · have h0' : remain ≠ 0 := by omega
      rw [cacheOpLoop_ne_zero ok phys v remain h0']
      set chunk := if remain > 0xFFFFFFFF then 0xFFFFFFFF else remain with hchunk
      have hc1 : 1 ≤ chunk := by rw [hchunk]; split <;> omega
      by_cases hok : ok phys v chunk
      · rw [if_pos hok]
        exact ⟨rfl, rfl, ih (remain - chunk) (by omega) _ _⟩
      · rw [if_neg hok]
        exact ⟨rfl, rfl, trivial⟩

theorem cacheOpLoop_sum (ok : Nat → Nat → Nat → Bool) :
    ∀ remain phys v, (cacheOpLoop ok phys v remain).1 = true →
      ((cacheOpLoop ok phys v remain).2.map (fun c => c.2.2)).sum = remain := by
  intro remain
  induction remain using Nat.strong_induction_on with
  | _ remain ih =>
    intro phys v hs
    rcases Nat.eq_zero_or_pos remain with h0 | h0
    · subst h0; rw [cacheOpLoop_zero]; simp
    · have h0' : remain ≠ 0 := by omega
      rw [cacheOpLoop_ne_zero ok phys v remain h0'] at hs ⊢
      set chunk := if remain > 0xFFFFFFFF then 0xFFFFFFFF else remain with hchunk
      have hcb : 1 ≤ chunk ∧ chunk ≤ remain := by rw [hchunk]; split <;> omega
      by_cases hok : ok phys v chunk
      · rw [if_pos hok] at hs ⊢
        simp only [List.map_cons, List.sum_cons]
        rw [ih (remain - chunk) (by omega) _ _ hs]
        omega
      · rw [if_neg hok] at hs
        simp at hs

theorem cacheOpLoop_fail (ok : Nat → Nat → Nat → Bool) :
    ∀ remain phys v, (cacheOpLoop ok phys v remain).1 = false →
      ∃ c ∈ (cacheOpLoop ok phys v remain).2, ok c.1 c.2.1 c.2.2 = false := by
  intro remain
  induction remain using Nat.strong_induction_on with
  | _ remain ih =>
    intro phys v hs
    rcases Nat.eq_zero_or_pos remain with h0 | h0
    · subst h0; rw [cacheOpLoop_zero] at hs; simp at hs
    · have h0' : remain ≠ 0 := by omega
      rw [cacheOpLoop_ne_zero ok phys v remain h0'] at hs ⊢
      set chunk := if remain > 0xFFFFFFFF then 0xFFFFFFFF else remain with hchunk
      by_cases hok : ok phys v chunk
      · rw [if_pos hok] at hs ⊢
        obtain ⟨c, hc, hcf⟩ := ih (remain - chunk) (by
            have : 1 ≤ chunk := by rw [hchunk]; split <;> omega
            omega) ((phys + chunk) % W) ((v + chunk) % W) hs
        exact ⟨c, List.mem_cons_of_mem _ hc, hcf⟩
      · rw [if_neg hok]
        exact ⟨(phys, v, chunk), List.mem_singleton_self _, by simpa using hok⟩

theorem cacheOpLoop_all_ok (ok : Nat → Nat → Nat → Bool)
    (hall : ∀ a b c, ok a b c = true) :
    ∀ remain phys v, (cacheOpLoop ok phys v remain).1 = true := by
  intro remain
  induction remain using Nat.strong_induction_on with
  | _ remain ih =>
    intro phys v
    rcases Nat.eq_zero_or_pos remain with h0 | h0
    · subst h0; rw [cacheOpLoop_zero]
    · have h0' : remain ≠ 0 := by omega
      rw [cacheOpLoop_ne_zero ok phys v remain h0']
      set chunk := if remain > 0xFFFFFFFF then 0xFFFFFFFF else remain with hchunk
      have hc1 : 1 ≤ chunk := by rw [hchunk]; split <;> omega
      rw [if_pos (hall phys v chunk)]
      exact ih (remain - chunk) (by omega) _ _

theorem cacheOpLoop_length_le (ok : Nat → Nat → Nat → Bool) :
    ∀ remain phys v, (cacheOpLoop ok phys v remain).2.length ≤ remain := by
  intro remain
  induction remain using Nat.strong_induction_on with
  | _ remain ih =>
    intro phys v
    rcases Nat.eq_zero_or_pos remain with h0 | h0
    · subst h0; rw [cacheOpLoop_zero]; simp
    · have h0' : remain ≠ 0 := by omega
      rw [cacheOpLoop_ne_zero ok phys v remain h0']
      set chunk := if remain > 0xFFFFFFFF then 0xFFFFFFFF else remain with hchunk
      have hc1 : 1 ≤ chunk := by rw [hchunk]; split <;> omega
      by_cases hok : ok phys v chunk
      · rw [if_pos hok]
        simp only [List.length_cons]
        have := ih (remain - chunk) (by omega) ((phys + chunk) % W) ((v + chunk) % W)
        omega
      · rw [if_neg hok]
        simp
        omega

theorem cacheOpLoop_head (ok : Nat → Nat → Nat → Bool) (remain phys v : Nat)
    (h0 : remain ≠ 0) :
    ∃ ch rest, (cacheOpLoop ok phys v remain).2 = (phys, v, ch) :: rest := by
  rw [cacheOpLoop_ne_zero ok phys v remain h0]
  by_cases hok : ok phys v (if remain > 0xFFFFFFFF then 0xFFFFFFFF else remain)
  · rw [if_pos hok]
    exact ⟨_, _, rfl⟩
  · rw [if_neg hok]
    exact ⟨_, _, rfl⟩

theorem CmmView.Reset_fst (view : CmmView) (a : Allocation) :
    (CmmView.Reset view a).1 = none := by
  cases view with
  | none => rfl
  | some impl =>
    show (if impl.data ≠ 0 ∧ impl.alloc.isSome then
      (none, { a with views := eraseFirstAddr impl.data a.views }) else (none, a)).1 = none
    split <;> rfl

/-- C7: `Reset()` is idempotent, and after `Reset()` the view behaves as
unmapped: `Data()` is null, `operator bool` is false, `Size()` is `0`, and
`Flush`/`Invalidate` fail with `kNotInitialized`. -/
theorem C7_reset_idempotent_unmapped :
    (∀ (view : CmmView) (a : Allocation),
        CmmView.Reset (CmmView.Reset view a).1 (CmmView.Reset view a).2 =
          CmmView.Reset view a)
  ∧ (∀ (view : CmmView) (a : Allocation),
        CmmView.Data (CmmView.Reset view a).1 = 0)
  ∧ (∀ (view : CmmView) (a : Allocation),
        CmmView.Size (CmmView.Reset view a).1 = 0)
  ∧ (∀ (view : CmmView) (a : Allocation),
        CmmView.toBool (CmmView.Reset view a).1 = false)
  ∧ (∀ (P : Platform) (view : CmmView) (a : Allocation) (offset size : Nat),
        CmmView.Flush P (CmmView.Reset view a).1 offset size =
          .error .kNotInitialized)
  ∧ (∀ (P : Platform) (view : CmmView) (a : Allocation) (offset size : Nat),
        CmmView.Invalidate P (CmmView.Reset view a).1 offset size =
          .error .kNotInitialized) := by
  refine ⟨?_, ?_, ?_, ?_, ?_, ?_⟩
  · intro view a
    have h := CmmView.Reset_fst view a
    rcases hE : CmmView.Reset view a with ⟨v1, a1⟩
    rw [hE] at h
    simp only at h
    subst h
    rfl
  · intro view a
    rw [CmmView.Reset_fst view a]
    rfl
  · intro view a
    rw [CmmView.Reset_fst view a]
    rfl
  · intro view a
    rw [CmmView.Reset_fst view a]
    rfl
  · intro P view a offset size
    rw [CmmView.Reset_fst view a]
    rfl
  · intro P view a offset size
    rw [CmmView.Reset_fst view a]
    rfl

/-- C1: the `Free()` error ladder (`kNoAllocation` when idle, `kNotOwned`
for an attached allocation, `kReferencesRemain` while another handle holds
a reference), release of the owned block exactly once on success; and the
symmetric `DetachExternal()` ladder (`kNoAllocation` when idle or owned,
`kReferencesRemain` while views remain), which never issues a platform
free call. -/
theorem C1_free_detach_ladder :
    (∀ w : BufferWorld, w.impl = false ∨ w.alloc = none →
        (CmmBuffer.Free w).1 = .error .kNoAllocation)
  ∧ (∀ (w : BufferWorld) (a : Allocation), w.impl = true → w.alloc = some a →
        a.owned = false → (CmmBuffer.Free w).1 = .error .kNotOwned)
  ∧ (∀ (w : BufferWorld) (a : Allocation), w.impl = true → w.alloc = some a →
        a.owned = true → w.refs > 1 →
        (CmmBuffer.Free w).1 = .error .kReferencesRemain)
  ∧ (∀ (w : BufferWorld) (a : Allocation), w.impl = true → w.alloc = some a →
        a.owned = true → a.phy ≠ 0 → ¬w.refs > 1 →
        (CmmBuffer.Free w).1 = .ok () ∧
        (CmmBuffer.Free w).2.memFreeCalls = w.memFreeCalls + 1 ∧
        (CmmBuffer.Free w).2.alloc = none ∧
        (CmmBuffer.Free (CmmBuffer.Free w).2).1 = .error .kNoAllocation ∧
        (CmmBuffer.Free (CmmBuffer.Free w).2).2.memFreeCalls =
          w.memFreeCalls + 1)
  ∧ (∀ w : BufferWorld, w.impl = false ∨ w.alloc = none →
        (CmmBuffer.DetachExternal w).1 = .error .kNoAllocation)
  ∧ (∀ (w : BufferWorld) (a : Allocation), w.impl = true → w.alloc = some a →
        a.owned = true → (CmmBuffer.DetachExternal w).1 = .error .kNoAllocation)
  ∧ (∀ (w : BufferWorld) (a : Allocation), w.impl = true → w.alloc = some a →
        a.owned = false → w.refs > 1 →
        (CmmBuffer.DetachExternal w).1 = .error .kReferencesRemain)
  ∧ (∀ w : BufferWorld,
        (CmmBuffer.DetachExternal w).2.memFreeCalls = w.memFreeCalls) := by
  refine ⟨?_, ?_, ?_, ?_, ?_, ?_, ?_, ?_⟩
  · intro w h
    rcases h with h | h
    · simp [CmmBuffer.Free, h]
    · cases hi : w.impl <;> simp [CmmBuffer.Free, h, hi]
  · intro w a hi ha ho2
    simp [CmmBuffer.Free, hi, ha, ho2]
  · intro w a hi ha ho hr
    simp [CmmBuffer.Free, hi, ha, ho, hr]
  · intro w a hi ha ho hp hr
    simp [CmmBuffer.Free, hi, ha, ho, hp, hr]
  · intro w h
    rcases h with h | h
    · simp [CmmBuffer.DetachExternal, h]
    · cases hi : w.impl <;> simp [CmmBuffer.DetachExternal, h, hi]
  · intro w a hi ha ho
    simp [CmmBuffer.DetachExternal, hi, ha, ho]
  · intro w a hi ha ho hr
    simp [CmmBuffer.DetachExternal, hi, ha, ho, hr]
  · intro w
    cases hi : w.impl
    · simp [CmmBuffer.DetachExternal, hi]
    · cases ha : w.alloc with
      | none => simp [CmmBuffer.DetachExternal, hi, ha]
      | some a =>
        by_cases ho : a.owned <;> by_cases hr : w.refs > 1 <;>
          simp [CmmBuffer.DetachExternal, hi, ha, ho, hr]

/-- C1 witness: the success branch of `Free` at a concrete owned world. -/
theorem C1_free_detach_ladder_witness :
    (CmmBuffer.Free ownW5solo).1 = .ok () ∧
    (CmmBuffer.Free ownW5solo).2.memFreeCalls = 1 := by
  have h := C1_free_detach_ladder.2.2.2.1 ownW5solo ownAlloc5 rfl rfl rfl
    (by decide) (by decide)
  exact ⟨h.1, h.2.1⟩

theorem bufferMapViewCore_ok {P : Platform} {fast : Bool} {a : Allocation}
    {offset size : Nat} {mode : CacheMode} {vi : ViewImpl} {a2 : Allocation}
    (h : bufferMapViewCore P fast a offset size mode = (.ok vi, a2)) :
    vi.offset = offset ∧ vi.size = size ∧ vi.mode = mode ∧
    a2.size = a.size ∧ a2.owned = a.owned ∧
    a2.views = a.views ++ [⟨vi.data, size, offset, mode⟩] ∧
    vi.alloc = some a2 := by
  unfold bufferMapViewCore at h
  split at h
  · simp at h
  · split at h
    · dsimp only at h
      split at h
      · simp at h
      · simp only [Prod.mk.injEq] at h
        obtain ⟨h1, h2⟩ := h
        injection h1 with h1
        subst h1
        subst h2
        simp
    · dsimp only at h
      split at h
      · simp at h
      · simp only [Prod.mk.injEq] at h
        obtain ⟨h1, h2⟩ := h
        injection h1 with h1
        subst h1
        subst h2
        simp

theorem CmmBuffer.MapViewW_ok {P : Platform} {fast : Bool} {w : BufferWorld}
    {offset size : Nat} {mode : CacheMode} {vi : ViewImpl} {w2 : BufferWorld}
    (h : CmmBuffer.MapViewW P fast w offset size mode = (.ok vi, w2)) :
    ∃ (a a2 : Allocation), w.alloc = some a ∧
      bufferMapViewCore P fast a offset size mode = (.ok vi, a2) ∧
      w2 = { w with alloc := some a2, refs := w.refs + 1 } := by
  unfold CmmBuffer.MapViewW at h
  split at h
  · simp at h
  · split at h
    · simp at h
    · rename_i a heq
      rcases hC : bufferMapViewCore P fast a offset size mode with ⟨rc, ac⟩
      rw [hC] at h
      cases rc with
      | error e => simp at h
      | ok vc =>
        simp only [Prod.mk.injEq] at h
        obtain ⟨h1, h2⟩ := h
        injection h1 with h1
        subst h1
        exact ⟨a, ac, heq, hC, h2.symm⟩

/-- C5: the `Allocate` error ladder — `kAlreadyInitialized` when the buffer
already holds an allocation, `kMemoryTooLarge` when the size exceeds the
platform per-call limit of 4 GiB, `kAllocationFailed` when the platform
allocation fails — and on success an owned allocation plus the base view
covering `[0, size)`. -/
theorem C5_allocate_ladder :
    (∀ (P : Platform) (w : BufferWorld) (a : Allocation) (size : Nat)
        (mode : CacheMode), w.impl = true → w.alloc = some a →
        (CmmBuffer.Allocate P w size mode).1 = .error .kAlreadyInitialized)
  ∧ (∀ (P : Platform) (w : BufferWorld) (size : Nat) (mode : CacheMode),
        w.alloc = none → size > 2 ^ 32 →
        (CmmBuffer.Allocate P w size mode).1 = .error .kMemoryTooLarge)
  ∧ (∀ (P : Platform) (w : BufferWorld) (size : Nat) (mode : CacheMode),
        w.alloc = none → ¬size > 0xFFFFFFFF → P.memAlloc size mode = none →
        (CmmBuffer.Allocate P w size mode).1 = .error .kAllocationFailed)
  ∧ (∀ (P : Platform) (w : BufferWorld) (size : Nat) (mode : CacheMode)
        (vi : ViewImpl), (CmmBuffer.Allocate P w size mode).1 = .ok vi →
        ∃ a2 : Allocation,
          (CmmBuffer.Allocate P w size mode).2.alloc = some a2 ∧
          a2.owned = true ∧ a2.size = size ∧
          vi.offset = 0 ∧ vi.size = size ∧ vi.mode = mode) := by
  refine ⟨?_, ?_, ?_, ?_⟩
  · intro P w a size mode hi ha
    simp [CmmBuffer.Allocate, hi, ha]
  · intro P w size mode ha hsz
    cases hi : w.impl <;>
      simp [CmmBuffer.Allocate, hi, ha, show size > 0xFFFFFFFF by omega]
  · intro P w size mode ha hsz hal
    cases hi : w.impl <;>
      simp [CmmBuffer.Allocate, hi, ha, hsz, hal]
  · intro P w size mode vi hok
    rcases hE : CmmBuffer.Allocate P w size mode with ⟨r1, w2⟩
    rw [hE] at hok
    simp only at hok
    subst hok
    dsimp only
    unfold CmmBuffer.Allocate at hE
    dsimp only at hE
    split at hE
    · simp at hE
    · split at hE
      · simp at hE
      · split at hE
        · simp at hE
        · obtain ⟨a0, a2, hal, hcore, hw⟩ := CmmBuffer.MapViewW_ok hE
          simp only [Option.some.injEq] at hal
          obtain ⟨hoff, hsz, hmode, ha2sz, ha2own, -, -⟩ :=
            bufferMapViewCore_ok hcore
          refine ⟨a2, ?_, ?_, ?_, hoff, hsz, hmode⟩
          · rw [hw]
          · rw [ha2own, ← hal]
          · rw [ha2sz, ← hal]

/-- An idle buffer world (fresh `CmmBuffer`). -/
def idleW : BufferWorld := { impl := true, alloc := none, refs := 0, memFreeCalls := 0 }

/-- C5 witness: a concrete successful allocation of 1024 bytes. -/
theorem C5_allocate_ladder_witness :
    ∃ a2 : Allocation,
      (CmmBuffer.Allocate okP idleW 1024 CacheMode.kCached).2.alloc = some a2 ∧
      a2.owned = true ∧ a2.size = 1024 ∧
      (⟨some ⟨4096, 1024, CacheMode.kCached,
          [⟨12288, 1024, 0, CacheMode.kCached⟩], true, 8192⟩,
        0, 12288, 1024, CacheMode.kCached⟩ : ViewImpl).offset = 0 ∧
      (⟨some ⟨4096, 1024, CacheMode.kCached,
          [⟨12288, 1024, 0, CacheMode.kCached⟩], true, 8192⟩,
        0, 12288, 1024, CacheMode.kCached⟩ : ViewImpl).size = 1024 ∧
      (⟨some ⟨4096, 1024, CacheMode.kCached,
          [⟨12288, 1024, 0, CacheMode.kCached⟩], true, 8192⟩,
        0, 12288, 1024, CacheMode.kCached⟩ : ViewImpl).mode = CacheMode.kCached :=
  C5_allocate_ladder.2.2.2 okP idleW 1024 CacheMode.kCached
    ⟨some ⟨4096, 1024, CacheMode.kCached,
        [⟨12288, 1024, 0, CacheMode.kCached⟩], true, 8192⟩,
      0, 12288, 1024, CacheMode.kCached⟩ rfl

/-- C10: `Allocate` is not atomic — when the platform allocation succeeds
but the base-view mapping fails, `Allocate` returns `kMapFailed` while the
buffer leaves the idle state keeping the owned allocation; a repeated
`Allocate` then returns `kAlreadyInitialized`, no free has happened, and
the block is released by a later `Free()`. -/
theorem C10_allocate_not_atomic :
    ∀ (P : Platform) (w : BufferWorld) (size : Nat) (mode : CacheMode)
      (phy vir : Nat),
      w.alloc = none → ¬size > 0xFFFFFFFF →
      P.memAlloc size mode = some (phy, vir) →
      phy < W → phy ≠ 0 →
      P.mmap phy size mode false = 0 →
      (CmmBuffer.Allocate P w size mode).1 = .error .kMapFailed ∧
      (∃ a2 : Allocation,
        (CmmBuffer.Allocate P w size mode).2.alloc = some a2 ∧
        a2.owned = true) ∧
      (CmmBuffer.Allocate P w size mode).2.memFreeCalls = w.memFreeCalls ∧
      (CmmBuffer.Allocate P (CmmBuffer.Allocate P w size mode).2 size mode).1 =
        .error .kAlreadyInitialized ∧
      (CmmBuffer.Free (CmmBuffer.Allocate P w size mode).2).1 = .ok () ∧
      (CmmBuffer.Free (CmmBuffer.Allocate P w size mode).2).2.memFreeCalls =
        w.memFreeCalls + 1 := by
  intro P w size mode phy vir ha hsz hM hphlt hph0 hmm
  have hmod : phy % W = phy := Nat.mod_eq_of_lt hphlt
  have hph : (phy % W + 0) % W = phy := by
    rw [Nat.add_zero, hmod, hmod]
  have hsm : ¬(0 + size) % W > size := by
    rw [Nat.zero_add]
    exact Nat.not_lt.mpr (Nat.mod_le _ _)
  have hcore : bufferMapViewCore P false
      ⟨phy % W, size, mode, [], true, vir % W⟩ 0 size mode =
      (.error .kMapFailed, ⟨phy % W, size, mode, [], true, vir % W⟩) := by
    unfold bufferMapViewCore
    rw [if_neg hsm]
    simp only [Bool.false_eq_true, if_false]
    unfold DoMmap
    rw [if_neg hsz, hph, hmm]
    simp
  have hE : CmmBuffer.Allocate P w size mode =
      (.error .kMapFailed,
        { impl := true, alloc := some ⟨phy % W, size, mode, [], true, vir % W⟩,
          refs := 1, memFreeCalls := w.memFreeCalls }) := by
    unfold CmmBuffer.Allocate
    cases hi : w.impl
    · simp [hi, ha, hsz, hM, CmmBuffer.MapViewW, hcore]
    · simp [hi, ha, hsz, hM, CmmBuffer.MapViewW, hcore]
  rw [hE]
  refine ⟨rfl, ⟨⟨phy % W, size, mode, [], true, vir % W⟩, rfl, rfl⟩, rfl, ?_, ?_, ?_⟩
  · simp [CmmBuffer.Allocate]
  · simp [CmmBuffer.Free, hmod, hph0]
  · simp [CmmBuffer.Free, hmod, hph0]

/-- C10 witness: a concrete buffer on a platform whose map primitive
fails. -/
theorem C10_allocate_not_atomic_witness :
    (CmmBuffer.Allocate failMmapP idleW 1024 CacheMode.kCached).1 =
      .error .kMapFailed ∧
    (CmmBuffer.Free (CmmBuffer.Allocate failMmapP idleW 1024
        CacheMode.kCached).2).1 = .ok () := by
  have h := C10_allocate_not_atomic failMmapP idleW 1024 CacheMode.kCached
    4096 8192 rfl (by decide) rfl (by decide) (by decide) rfl
  exact ⟨h.1, h.2.2.2.2.1⟩

/-- C4: `Flush`/`Invalidate` fail with `kOutOfRange` when
`offset ≥ view.size`, with `kInvalidArgument` when the resolved length is
zero, and with `kFlushFailed`/`kInvalidateFailed` when a platform call
fails; the `SIZE_MAX` sentinel resolves the length to the distance from
`offset` to the end of the view. -/
theorem C4_flush_invalidate_errors :
    (∀ (P : Platform) (impl : ViewImpl) (a : Allocation) (offset size : Nat),
        impl.alloc = some a → impl.data ≠ 0 → offset ≥ impl.size →
        CmmView.Flush P (some impl) offset size = .error .kOutOfRange ∧
        CmmView.Invalidate P (some impl) offset size = .error .kOutOfRange)
  ∧ (∀ (P : Platform) (impl : ViewImpl) (a : Allocation) (offset size : Nat),
        impl.alloc = some a → impl.data ≠ 0 → ¬offset ≥ impl.size →
        resolvedLen impl.size offset size = 0 →
        CmmView.Flush P (some impl) offset size = .error .kInvalidArgument ∧
        CmmView.Invalidate P (some impl) offset size = .error .kInvalidArgument)
  ∧ (∀ (P : Platform) (impl : ViewImpl) (a : Allocation) (offset size : Nat),
        impl.alloc = some a → impl.data ≠ 0 → ¬offset ≥ impl.size →
        resolvedLen impl.size offset size ≠ 0 →
        (cacheOpLoop P.mflushCache ((a.phy + impl.offset + offset) % W)
          ((impl.data + offset) % W) (resolvedLen impl.size offset size)).1 =
            false →
        CmmView.Flush P (some impl) offset size = .error .kFlushFailed)
  ∧ (∀ (P : Platform) (impl : ViewImpl) (a : Allocation) (offset size : Nat),
        impl.alloc = some a → impl.data ≠ 0 → ¬offset ≥ impl.size →
        resolvedLen impl.size offset size ≠ 0 →
        (cacheOpLoop P.minvalidateCache ((a.phy + impl.offset + offset) % W)
          ((impl.data + offset) % W) (resolvedLen impl.size offset size)).1 =
            false →
        CmmView.Invalidate P (some impl) offset size = .error .kInvalidateFailed)
  ∧ (∀ viewSize offset : Nat, offset < viewSize →
        resolvedLen viewSize offset SIZE_MAX = viewSize - offset) := by
  refine ⟨?_, ?_, ?_, ?_, ?_⟩
  · intro P impl a offset size ha hd hoff
    constructor <;>
      simp [CmmView.Flush, CmmView.FlushCalls, CmmView.Invalidate,
        CmmView.InvalidateCalls, ha, hd, hoff]
  · intro P impl a offset size ha hd hoff hres
    constructor <;>
      simp [CmmView.Flush, CmmView.FlushCalls, CmmView.Invalidate,
        CmmView.InvalidateCalls, ha, hd, hoff, hres]
  · intro P impl a offset size ha hd hoff hres hloop
    simp [CmmView.Flush, CmmView.FlushCalls, ha, hd, hoff, hres, hloop]
  · intro P impl a offset size ha hd hoff hres hloop
    simp [CmmView.Invalidate, CmmView.InvalidateCalls, ha, hd, hoff, hres,
      hloop]
  · intro viewSize offset _
    rw [resolvedLen, if_pos (Or.inl rfl)]

/-- C4 witness: concrete error returns on the five-byte view. -/
theorem C4_flush_invalidate_errors_witness :
    CmmView.Flush okP view5 7 1 = .error .kOutOfRange ∧
    CmmView.Flush okP view5 0 0 = .error .kInvalidArgument ∧
    resolvedLen 5 2 SIZE_MAX = 3 := by
  refine ⟨?_, ?_, ?_⟩
  · exact (C4_flush_invalidate_errors.1 okP
      ⟨some ownAlloc5, 0, 256, 5, CacheMode.kCached⟩ ownAlloc5 7 1 rfl
      (by decide) (by decide)).1
  · exact (C4_flush_invalidate_errors.2.1 okP
      ⟨some ownAlloc5, 0, 256, 5, CacheMode.kCached⟩ ownAlloc5 0 0 rfl
      (by decide) (by decide) (by decide)).1
  · exact C4_flush_invalidate_errors.2.2.2.2 5 2 (by decide)

/-- C2: the cache-op chunking loop issues calls of at most `0xFFFFFFFF`
bytes, each advancing physical address and virtual pointer together so the
chunks contiguously and exactly cover the resolved range; any chunk
failure makes the whole `Flush`/`Invalidate` return
`kFlushFailed`/`kInvalidateFailed` with no partial-success reporting; the
loop terminates (it issues at most `remain` calls). -/
theorem C2_chunking_all_or_nothing :
    (∀ (ok : Nat → Nat → Nat → Bool) (remain phys v : Nat),
        ∀ c ∈ (cacheOpLoop ok phys v remain).2, 1 ≤ c.2.2 ∧ c.2.2 ≤ 0xFFFFFFFF)
  ∧ (∀ (ok : Nat → Nat → Nat → Bool) (remain phys v : Nat),
        IsChained phys v (cacheOpLoop ok phys v remain).2)
  ∧ (∀ (ok : Nat → Nat → Nat → Bool) (remain phys v : Nat),
        (cacheOpLoop ok phys v remain).1 = true →
        ((cacheOpLoop ok phys v remain).2.map (fun c => c.2.2)).sum = remain)
  ∧ (∀ (ok : Nat → Nat → Nat → Bool) (remain phys v : Nat),
        (cacheOpLoop ok phys v remain).2.length ≤ remain)
  ∧ (∀ (ok : Nat → Nat → Nat → Bool) (remain phys v : Nat),
        (cacheOpLoop ok phys v remain).1 = false →
        ∃ c ∈ (cacheOpLoop ok phys v remain).2, ok c.1 c.2.1 c.2.2 = false)
  ∧ (∀ (P : Platform) (impl : ViewImpl) (a : Allocation) (offset size : Nat),
        impl.alloc = some a → impl.data ≠ 0 → offset < impl.size →
        resolvedLen impl.size offset size ≠ 0 →
        CmmView.Flush P (some impl) offset size =
          (if (cacheOpLoop P.mflushCache ((a.phy + impl.offset + offset) % W)
                ((impl.data + offset) % W)
                (resolvedLen impl.size offset size)).1
           then .ok () else .error .kFlushFailed))
  ∧ (∀ (P : Platform) (impl : ViewImpl) (a : Allocation) (offset size : Nat),
        impl.alloc = some a → impl.data ≠ 0 → offset < impl.size →
        resolvedLen impl.size offset size ≠ 0 →
        CmmView.Invalidate P (some impl) offset size =
          (if (cacheOpLoop P.minvalidateCache
                ((a.phy + impl.offset + offset) % W) ((impl.data + offset) % W)
                (resolvedLen impl.size offset size)).1
           then .ok () else .error .kInvalidateFailed)) := by
  refine ⟨cacheOpLoop_chunk_le, ?_, ?_, ?_, ?_, ?_, ?_⟩
  · intro ok remain phys v
    exact cacheOpLoop_chained ok remain phys v
  · intro ok remain phys v h
    exact cacheOpLoop_sum ok remain phys v h
  · intro ok remain phys v
    exact cacheOpLoop_length_le ok remain phys v
  · intro ok remain phys v h
    exact cacheOpLoop_fail ok remain phys v h
  · intro P impl a offset size ha hd hoff hres
    simp [CmmView.Flush, CmmView.FlushCalls, ha, hd, Nat.not_le.mpr hoff, hres]
  · intro P impl a offset size ha hd hoff hres
    simp [CmmView.Invalidate, CmmView.InvalidateCalls, ha, hd,
      Nat.not_le.mpr hoff, hres]

/-- C2 witness: the chunk-sum property at a concrete nine-gibibyte request
and the loop-determined result of a concrete `Flush`. -/
theorem C2_chunking_all_or_nothing_witness :
    ((cacheOpLoop (fun _ _ _ => true) 4096 256 (9 * 2 ^ 30)).2.map
      (fun c => c.2.2)).sum = 9 * 2 ^ 30 ∧
    CmmView.Flush okP view5 1 2 =
      (if (cacheOpLoop okP.mflushCache ((4096 + 0 + 1) % W) ((256 + 1) % W)
            (resolvedLen 5 1 2)).1
       then .ok () else .error .kFlushFailed) := by
  constructor
  · exact C2_chunking_all_or_nothing.2.2.1 (fun _ _ _ => true) (9 * 2 ^ 30)
      4096 256 (cacheOpLoop_all_ok _ (fun _ _ _ => rfl) _ _ _)
  · exact C2_chunking_all_or_nothing.2.2.2.2.2.1 okP
      ⟨some ownAlloc5, 0, 256, 5, CacheMode.kCached⟩ ownAlloc5 1 2 rfl
      (by decide) (by decide) (by decide)

/-- C9 counterexample: with `offset = 3`, `view.size = 5` and
`size = 2^64 - 2` (not the sentinel), the mathematical sum `offset + size`
exceeds the view size, yet the wrapping comparison in the code does not
clamp: the resolved length is `2^64 - 2`, not `2`, and a `Flush` whose
platform accepts only small chunks observably diverges from the sentinel
call. -/
theorem C9_clamp_counterexample :
    3 < 5 ∧ W - 2 ≠ SIZE_MAX ∧ 5 < 3 + (W - 2) ∧
    resolvedLen 5 3 (W - 2) = W - 2 ∧ W - 2 ≠ 5 - 3 ∧
    CmmView.Flush chunk2P view5 3 SIZE_MAX = .ok () ∧
    CmmView.Flush chunk2P view5 3 (W - 2) = .error .kFlushFailed := by
  have hl2 : cacheOpLoop chunk2P.mflushCache ((4096 + 0 + 3) % W)
      ((256 + 3) % W) 2 = (true, [((4096 + 0 + 3) % W, (256 + 3) % W, 2)]) := by
    rw [cacheOpLoop_le_u32 _ _ _ 2 (by decide) (by decide)]
    simp [chunk2P]
  have hl3 : cacheOpLoop chunk2P.mflushCache ((4096 + 0 + 3) % W)
      ((256 + 3) % W) (W - 2) =
      (false, [((4096 + 0 + 3) % W, (256 + 3) % W, 0xFFFFFFFF)]) := by
    rw [cacheOpLoop_ne_zero _ _ _ _ (by decide)]
    rw [if_pos (by decide : W - 2 > 0xFFFFFFFF)]
    rw [if_neg (by simp [chunk2P] : ¬chunk2P.mflushCache ((4096 + 0 + 3) % W)
      ((256 + 3) % W) 0xFFFFFFFF = true)]
  refine ⟨by decide, by decide, by decide, by decide, by decide, ?_, ?_⟩
  · simp [CmmView.Flush, CmmView.FlushCalls, view5, ownAlloc5,
      show resolvedLen 5 3 SIZE_MAX = 2 by decide, hl2]
  · simp [CmmView.Flush, CmmView.FlushCalls, view5, ownAlloc5,
      show resolvedLen 5 3 (W - 2) = W - 2 by decide, hl3,
      show ¬(W - 2 = 0) by decide]

/-- C9 amended: provided `offset + size` does not overflow `size_t`
(`offset + size < 2^64`), a non-sentinel size with
`offset < view.size < offset + size` is clamped to `view.size - offset`,
and `Flush`/`Invalidate` behave exactly as with the `SIZE_MAX` sentinel;
in general the code clamps exactly when `size = SIZE_MAX` or the wrapping
sum `(offset + size) % 2^64` exceeds `view.size`. -/
theorem C9_clamp_amended :
    (∀ viewSize offset size : Nat, offset < viewSize → size ≠ SIZE_MAX →
        viewSize < offset + size → offset + size < W →
        resolvedLen viewSize offset size = viewSize - offset)
  ∧ (∀ (P : Platform) (impl : ViewImpl) (offset size : Nat),
        offset < impl.size → size ≠ SIZE_MAX →
        impl.size < offset + size → offset + size < W →
        CmmView.Flush P (some impl) offset size =
          CmmView.Flush P (some impl) offset SIZE_MAX ∧
        CmmView.Invalidate P (some impl) offset size =
          CmmView.Invalidate P (some impl) offset SIZE_MAX) := by
  have hres : ∀ viewSize offset size : Nat, offset < viewSize →
      viewSize < offset + size → offset + size < W →
      resolvedLen viewSize offset size = viewSize - offset := by
    intro viewSize offset size hlt hgt hW
    rw [resolvedLen, if_pos]
    right
    rw [Nat.mod_eq_of_lt hW]
    exact hgt
  refine ⟨fun vs o s h1 _ h3 h4 => hres vs o s h1 h3 h4, ?_⟩
  intro P impl offset size h1 h2 h3 h4
  have he : resolvedLen impl.size offset size =
      resolvedLen impl.size offset SIZE_MAX := by
    rw [hres impl.size offset size h1 h3 h4, resolvedLen,
      if_pos (Or.inl rfl)]
  rcases ha : impl.alloc with _ | a
  · constructor <;>
      simp [CmmView.Flush, CmmView.FlushCalls, CmmView.Invalidate,
        CmmView.InvalidateCalls, ha]
  · constructor
    · unfold CmmView.Flush CmmView.FlushCalls
      dsimp only
      rw [ha]
      dsimp only
      rw [he]
    · unfold CmmView.Invalidate CmmView.InvalidateCalls
      dsimp only
      rw [ha]
      dsimp only
      rw [he]

/-- C9 amended witness: a concrete clamped call (`offset 3`, `size 3` on a
five-byte view). -/
theorem C9_clamp_amended_witness :
    resolvedLen 5 3 3 = 2 ∧
    CmmView.Flush chunk2P view5 3 3 = CmmView.Flush chunk2P view5 3 SIZE_MAX := by
  constructor
  · exact C9_clamp_amended.1 5 3 3 (by decide) (by decide) (by decide)
      (by decide)
  · exact (C9_clamp_amended.2 chunk2P ⟨some ownAlloc5, 0, 256, 5,
      CacheMode.kCached⟩ 3 3 (by decide) (by decide) (by decide) (by decide)).1

/-- C8: errors are atomic — a `MapView`/`MapViewFast` error leaves the
buffer world (allocation fields, view registry, reference count) unchanged,
and a view-level mapping error leaves the shared allocation unchanged; a
failed `Flush`/`Invalidate` mutates no view field (the embedding returns
no view state because the method assigns none), so the same call retried
on a working platform succeeds. -/
theorem C8_error_atomicity :
    (∀ (P : Platform) (fast : Bool) (w : BufferWorld) (offset size : Nat)
        (mode : CacheMode) (e : ErrorCode) (w2 : BufferWorld),
        CmmBuffer.MapViewW P fast w offset size mode = (.error e, w2) →
        w2 = w)
  ∧ (∀ (P : Platform) (fast : Bool) (view : CmmView) (offset size : Nat)
        (mode : CacheMode) (e : ErrorCode) (a2 : Option Allocation),
        CmmView.MapViewCore P fast view offset size mode = (.error e, a2) →
        a2 = CmmView.allocOf view)
  ∧ (∀ (P Q : Platform) (impl : ViewImpl) (a : Allocation) (offset size : Nat)
        (e : ErrorCode),
        CmmView.Flush P (some impl) offset size = .error e →
        impl.alloc = some a → impl.data ≠ 0 → offset < impl.size →
        resolvedLen impl.size offset size ≠ 0 →
        (∀ x y z, Q.mflushCache x y z = true) →
        CmmView.Flush Q (some impl) offset size = .ok ())
  ∧ (∀ (P Q : Platform) (impl : ViewImpl) (a : Allocation) (offset size : Nat)
        (e : ErrorCode),
        CmmView.Invalidate P (some impl) offset size = .error e →
        impl.alloc = some a → impl.data ≠ 0 → offset < impl.size →
        resolvedLen impl.size offset size ≠ 0 →
        (∀ x y z, Q.minvalidateCache x y z = true) →
        CmmView.Invalidate Q (some impl) offset size = .ok ()) := by
  refine ⟨?_, ?_, ?_, ?_⟩
  · intro P fast w offset size mode e w2 h
    unfold CmmBuffer.MapViewW at h
    split at h
    · simp only [Prod.mk.injEq] at h
      exact h.2.symm
    · split at h
      · simp only [Prod.mk.injEq] at h
        exact h.2.symm
      · split at h
        · simp only [Prod.mk.injEq] at h
          exact h.2.symm
        · simp at h
  · intro P fast view offset size mode e a2 h
    unfold CmmView.MapViewCore at h
    cases view with
    | none =>
      simp only [Prod.mk.injEq] at h
      exact h.2.symm
    | some impl =>
      dsimp only at h
      rcases ha : impl.alloc with _ | a
      · rw [ha] at h
        dsimp only at h
        simp only [Prod.mk.injEq] at h
        rw [← h.2, CmmView.allocOf, ha]
      · rw [ha] at h
        dsimp only at h
        split at h
        · simp only [Prod.mk.injEq] at h
          rw [← h.2, CmmView.allocOf, ha]
        · split at h <;> split at h
          · simp only [Prod.mk.injEq] at h
            rw [← h.2, CmmView.allocOf, ha]
          · simp at h
          · simp only [Prod.mk.injEq] at h
            rw [← h.2, CmmView.allocOf, ha]
          · simp at h
  · intro P Q impl a offset size e _h ha hd hoff hres hall
    simp [CmmView.Flush, CmmView.FlushCalls, ha, hd, Nat.not_le.mpr hoff, hres,
      cacheOpLoop_all_ok Q.mflushCache hall]
  · intro P Q impl a offset size e _h ha hd hoff hres hall
    simp [CmmView.Invalidate, CmmView.InvalidateCalls, ha, hd,
      Nat.not_le.mpr hoff, hres, cacheOpLoop_all_ok Q.minvalidateCache hall]

/-- C8 witness: a concrete out-of-range mapping leaves the world unchanged,
and a concrete failed flush succeeds on retry with a working platform. -/
theorem C8_error_atomicity_witness :
    (CmmBuffer.MapViewW okP false attachW2 5 5 CacheMode.kNonCached).2 =
      attachW2 ∧
    CmmView.Flush okP view5 3 2 = .ok () := by
  have hfail : CmmView.Flush failCacheP view5 3 2 = .error .kFlushFailed := by
    have hl : cacheOpLoop failCacheP.mflushCache ((4096 + 0 + 3) % W)
        ((256 + 3) % W) 2 =
        (false, [((4096 + 0 + 3) % W, (256 + 3) % W, 2)]) := by
      rw [cacheOpLoop_le_u32 _ _ _ 2 (by decide) (by decide)]
      simp [failCacheP]
    simp [CmmView.Flush, CmmView.FlushCalls, view5, ownAlloc5,
      show resolvedLen 5 3 2 = 2 by decide, hl]
  constructor
  · exact C8_error_atomicity.1 okP false attachW2 5 5 CacheMode.kNonCached
      .kOutOfRange _ rfl
  · exact C8_error_atomicity.2.2.1 failCacheP okP
      ⟨some ownAlloc5, 0, 256, 5, CacheMode.kCached⟩ ownAlloc5 3 2
      .kFlushFailed hfail rfl (by decide) (by decide) (by decide)
      (fun _ _ _ => rfl)

/-- C3 counterexample: on a two-byte allocation, `MapView(2^64 - 1, 2)` has
a mathematical `offset + size` far above the allocation size, yet the
wrapping `size_t` comparison accepts it and the call returns Ok, not
`kOutOfRange`; and on a `2^32`-byte allocation, `MapView(0, 2^32)` has
`offset + size == size` yet fails with `kMapFailed` even though the
platform map primitive always succeeds (the wrapper's own 32-bit guard
rejects the length). -/
theorem C3_mapview_range_counterexample :
    attachAlloc2.size < (W - 1) + 2 ∧
    (CmmBuffer.MapViewW okP false attachW2 (W - 1) 2
        CacheMode.kNonCached).1 ≠ Except.error ErrorCode.kOutOfRange ∧
    0 + 2 ^ 32 = attachAlloc4G.size ∧
    (∀ x y m f, okP.mmap x y m f = 12288) ∧
    (CmmBuffer.MapViewW okP false attachW4G 0 (2 ^ 32)
        CacheMode.kNonCached).1 = Except.error ErrorCode.kMapFailed := by
  refine ⟨by decide, ?_, rfl, fun x y m f => rfl, rfl⟩
  intro h
  rw [show (CmmBuffer.MapViewW okP false attachW2 (W - 1) 2
      CacheMode.kNonCached).1 =
    Except.ok ⟨some ⟨4096, 2, CacheMode.kNonCached,
      [⟨12288, 2, W - 1, CacheMode.kNonCached⟩], false, 0⟩,
      W - 1, 12288, 2, CacheMode.kNonCached⟩ from rfl] at h
  exact Except.noConfusion h

/-- C3 amended: `MapView`/`MapViewFast` fail with `kOutOfRange` exactly
when the wrapping `size_t` sum `(offset + size) mod 2^64` exceeds the
allocation (resp. view) size — in particular whenever `offset + size`
exceeds it without overflow; with `offset + size == size` the call
succeeds provided `size` also passes the wrapper's 32-bit map-length guard
(`size ≤ 0xFFFFFFFF`) and the platform mapping primitive succeeds. -/
theorem C3_mapview_range_amended :
    (∀ (P : Platform) (fast : Bool) (w : BufferWorld) (a : Allocation)
        (offset size : Nat) (mode : CacheMode),
        w.impl = true → w.alloc = some a → (offset + size) % W > a.size →
        (CmmBuffer.MapViewW P fast w offset size mode).1 =
          .error .kOutOfRange)
  ∧ (∀ (P : Platform) (fast : Bool) (w : BufferWorld) (a : Allocation)
        (offset size : Nat) (mode : CacheMode),
        w.impl = true → w.alloc = some a → offset + size = a.size →
        ¬size > 0xFFFFFFFF → P.mmap ((a.phy + offset) % W) size mode fast ≠ 0 →
        ∃ vi : ViewImpl,
          (CmmBuffer.MapViewW P fast w offset size mode).1 = .ok vi ∧
          vi.offset = offset ∧ vi.size = size ∧ vi.mode = mode)
  ∧ (∀ (P : Platform) (fast : Bool) (impl : ViewImpl) (a : Allocation)
        (offset size : Nat) (mode : CacheMode),
        impl.alloc = some a → (offset + size) % W > impl.size →
        (CmmView.MapViewCore P fast (some impl) offset size mode).1 =
          .error .kOutOfRange)
  ∧ (∀ (P : Platform) (fast : Bool) (impl : ViewImpl) (a : Allocation)
        (offset size : Nat) (mode : CacheMode),
        impl.alloc = some a → offset + size = impl.size →
        ¬size > 0xFFFFFFFF →
        P.mmap ((a.phy + (impl.offset + offset) % W) % W) size mode fast ≠ 0 →
        ∃ vi : ViewImpl,
          (CmmView.MapViewCore P fast (some impl) offset size mode).1 =
            .ok vi ∧
          vi.offset = (impl.offset + offset) % W ∧ vi.size = size ∧
          vi.mode = mode) := by
  have hnr : ∀ s t u : Nat, s + t = u → ¬(s + t) % W > u := by
    intro s t u h
    rw [h]
    exact Nat.not_lt.mpr (Nat.mod_le _ _)
  refine ⟨?_, ?_, ?_, ?_⟩
  · intro P fast w a offset size mode hi ha hrange
    simp [CmmBuffer.MapViewW, bufferMapViewCore, hi, ha, hrange]
  · intro P fast w a offset size mode hi ha hsum hszle hmap
    cases fast with
    | false =>
      refine ⟨⟨some { a with views := a.views ++
          [⟨DoMmap P ((a.phy + offset) % W) size mode, size, offset, mode⟩] },
        offset, DoMmap P ((a.phy + offset) % W) size mode, size, mode⟩,
        ?_, rfl, rfl, rfl⟩
      simp [CmmBuffer.MapViewW, bufferMapViewCore, hi, ha,
        hnr offset size a.size hsum, DoMmap, hszle, hmap]
    | true =>
      refine ⟨⟨some { a with views := a.views ++
          [⟨DoMmapFast P ((a.phy + offset) % W) size mode, size, offset,
            mode⟩] },
        offset, DoMmapFast P ((a.phy + offset) % W) size mode, size, mode⟩,
        ?_, rfl, rfl, rfl⟩
      simp [CmmBuffer.MapViewW, bufferMapViewCore, hi, ha,
        hnr offset size a.size hsum, DoMmapFast, hszle, hmap]
  · intro P fast impl a offset size mode ha hrange
    simp [CmmView.MapViewCore, ha, hrange]
  · intro P fast impl a offset size mode ha hsum hszle hmap
    cases fast with
    | false =>
      refine ⟨⟨some { a with views := a.views ++
          [⟨DoMmap P ((a.phy + (impl.offset + offset) % W) % W) size mode,
            size, (impl.offset + offset) % W, mode⟩] },
        (impl.offset + offset) % W,
        DoMmap P ((a.phy + (impl.offset + offset) % W) % W) size mode, size,
        mode⟩, ?_, rfl, rfl, rfl⟩
      rw [Nat.add_mod_mod] at hmap
      simp [CmmView.MapViewCore, ha, hnr offset size impl.size hsum, DoMmap,
        hszle, hmap]
    | true =>
      refine ⟨⟨some { a with views := a.views ++
          [⟨DoMmapFast P ((a.phy + (impl.offset + offset) % W) % W) size mode,
            size, (impl.offset + offset) % W, mode⟩] },
        (impl.offset + offset) % W,
        DoMmapFast P ((a.phy + (impl.offset + offset) % W) % W) size mode,
        size, mode⟩, ?_, rfl, rfl, rfl⟩
      rw [Nat.add_mod_mod] at hmap
      simp [CmmView.MapViewCore, ha, hnr offset size impl.size hsum,
        DoMmapFast, hszle, hmap]

/-- C3 amended witness: a full-range mapping of the two-byte attached
allocation succeeds, and an out-of-range request fails. -/
theorem C3_mapview_range_amended_witness :
    (∃ vi : ViewImpl,
      (CmmBuffer.MapViewW okP false attachW2 0 2 CacheMode.kNonCached).1 =
        .ok vi ∧ vi.offset = 0 ∧ vi.size = 2 ∧
        vi.mode = CacheMode.kNonCached) ∧
    (CmmBuffer.MapViewW okP false attachW2 1 2 CacheMode.kNonCached).1 =
      .error .kOutOfRange := by
  constructor
  · exact C3_mapview_range_amended.2.1 okP false attachW2 attachAlloc2 0 2
      CacheMode.kNonCached rfl rfl (by decide) (by decide) (by decide)
  · exact C3_mapview_range_amended.1 okP false attachW2 attachAlloc2 1 2
      CacheMode.kNonCached rfl rfl (by decide)

theorem eraseFirstAddr_mem {addr : Nat} {l : List ViewEntry} {e : ViewEntry}
    (h : e ∈ eraseFirstAddr addr l) : e ∈ l := by
  induction l with
  | nil => simp [eraseFirstAddr] at h
  | cons x rest ih =>
    unfold eraseFirstAddr at h
    split at h
    · exact List.mem_cons_of_mem _ h
    · rcases List.mem_cons.mp h with rfl | h
      · exact List.mem_cons_self _ _
      · exact List.mem_cons_of_mem _ (ih h)

theorem bufferMapViewCore_inv {P : Platform} {fast : Bool} {a : Allocation}
    {offset size : Nat} {mode : CacheMode} (hinv : RegistryInvariant a)
    (hW : offset + size < W) :
    RegistryInvariant (bufferMapViewCore P fast a offset size mode).2 := by
  unfold bufferMapViewCore
  split
  · exact hinv
  · rename_i hrange
    dsimp only
    split
    · split
      · exact hinv
      · intro e he
        dsimp only at he
        rcases List.mem_append.mp he with he | he
        · exact hinv e he
        · rcases List.mem_singleton.mp he with rfl
          dsimp only
          rw [Nat.mod_eq_of_lt hW] at hrange
          omega
    · split
      · exact hinv
      · intro e he
        dsimp only at he
        rcases List.mem_append.mp he with he | he
        · exact hinv e he
        · rcases List.mem_singleton.mp he with rfl
          dsimp only
          rw [Nat.mod_eq_of_lt hW] at hrange
          omega

theorem viewMapViewCore_inv {P : Platform} {fast : Bool} {impl : ViewImpl}
    {a : Allocation} {offset size : Nat} {mode : CacheMode}
    (ha : impl.alloc = some a) (hinv : RegistryInvariant a)
    (hwin : impl.offset + impl.size ≤ a.size)
    (hW : impl.offset + offset + size < W) :
    ∀ a2, (CmmView.MapViewCore P fast (some impl) offset size mode).2 =
      some a2 → RegistryInvariant a2 := by
  intro a2 h2
  unfold CmmView.MapViewCore at h2
  dsimp only at h2
  rw [ha] at h2
  dsimp only at h2
  split at h2
  · dsimp only at h2
    rw [Option.some.injEq] at h2
    exact h2 ▸ hinv
  · rename_i hrange
    rw [Nat.mod_eq_of_lt (by omega : offset + size < W)] at hrange
    split at h2
    · split at h2
      · dsimp only at h2
        rw [Option.some.injEq] at h2
        exact h2 ▸ hinv
      · dsimp only at h2
        rw [Option.some.injEq] at h2
        subst h2
        intro e he
        dsimp only at he
        rcases List.mem_append.mp he with he | he
        · exact hinv e he
        · rcases List.mem_singleton.mp he with rfl
          dsimp only
          rw [Nat.mod_eq_of_lt (by omega : impl.offset + offset < W)]
          omega
    · split at h2
      · dsimp only at h2
        rw [Option.some.injEq] at h2
        exact h2 ▸ hinv
      · dsimp only at h2
        rw [Option.some.injEq] at h2
        subst h2
        intro e he
        dsimp only at he
        rcases List.mem_append.mp he with he | he
        · exact hinv e he
        · rcases List.mem_singleton.mp he with rfl
          dsimp only
          rw [Nat.mod_eq_of_lt (by omega : impl.offset + offset < W)]
          omega

theorem MapViewW_alloc_inv {P : Platform} {fast : Bool} {w : BufferWorld}
    {offset size : Nat} {mode : CacheMode}
    (hinv : ∀ a, w.alloc = some a → RegistryInvariant a)
    (hW : offset + size < W) :
    ∀ a2, (CmmBuffer.MapViewW P fast w offset size mode).2.alloc = some a2 →
      RegistryInvariant a2 := by
  intro a2 h
  unfold CmmBuffer.MapViewW at h
  split at h
  · exact hinv a2 h
  · split at h
    · exact hinv a2 h
    · rename_i a heq
      rcases hC : bufferMapViewCore P fast a offset size mode with ⟨rc, ac⟩
      rw [hC] at h
      cases rc with
      | error e =>
        dsimp only at h
        exact hinv a2 h
      | ok vc =>
        dsimp only at h
        rw [Option.some.injEq] at h
        subst h
        have hi2 := @bufferMapViewCore_inv P fast a offset size mode
          (hinv a heq) hW
        rw [hC] at hi2
        exact hi2

/-- C6 counterexample: from a two-byte allocation with an empty (hence
invariant-satisfying) registry, the accepted call `MapView(2^64 - 1, 2)`
registers a view entry with `offset + size = 2^64 + 1 > 2`, violating the
invariant. -/
theorem C6_registry_invariant_counterexample :
    RegistryInvariant attachAlloc2 ∧
    (∃ vi : ViewImpl, (bufferMapViewCore okP false attachAlloc2 (W - 1) 2
        CacheMode.kNonCached).1 = .ok vi) ∧
    ¬RegistryInvariant (bufferMapViewCore okP false attachAlloc2 (W - 1) 2
        CacheMode.kNonCached).2 := by
  refine ⟨by decide, ⟨⟨some ⟨4096, 2, CacheMode.kNonCached,
    [⟨12288, 2, W - 1, CacheMode.kNonCached⟩], false, 0⟩,
    W - 1, 12288, 2, CacheMode.kNonCached⟩, rfl⟩, by decide⟩

/-- C6 amended: provided the requested ranges do not overflow `size_t`
(for a buffer-level call `offset + size < 2^64`; for a view-level call
`view.offset + offset + size < 2^64` with the view's window inside the
allocation), every operation — `MapView`/`MapViewFast` on buffer and view,
`Allocate`, `Reset`, `Free` — preserves the registry invariant
`entry.offset + entry.size ≤ Allocation.size`. -/
theorem C6_registry_invariant_amended :
    (∀ (P : Platform) (fast : Bool) (a : Allocation) (offset size : Nat)
        (mode : CacheMode), RegistryInvariant a → offset + size < W →
        RegistryInvariant (bufferMapViewCore P fast a offset size mode).2)
  ∧ (∀ (P : Platform) (fast : Bool) (impl : ViewImpl) (a : Allocation)
        (offset size : Nat) (mode : CacheMode),
        impl.alloc = some a → RegistryInvariant a →
        impl.offset + impl.size ≤ a.size →
        impl.offset + offset + size < W →
        ∀ a2, (CmmView.MapViewCore P fast (some impl) offset size mode).2 =
          some a2 → RegistryInvariant a2)
  ∧ (∀ (view : CmmView) (a : Allocation), RegistryInvariant a →
        RegistryInvariant (CmmView.Reset view a).2)
  ∧ (∀ (P : Platform) (fast : Bool) (w : BufferWorld) (offset size : Nat)
        (mode : CacheMode),
        (∀ a, w.alloc = some a → RegistryInvariant a) → offset + size < W →
        ∀ a2, (CmmBuffer.MapViewW P fast w offset size mode).2.alloc =
          some a2 → RegistryInvariant a2)
  ∧ (∀ (P : Platform) (w : BufferWorld) (size : Nat) (mode : CacheMode),
        (∀ a, w.alloc = some a → RegistryInvariant a) →
        ∀ a2, (CmmBuffer.Allocate P w size mode).2.alloc = some a2 →
          RegistryInvariant a2)
  ∧ (∀ w : BufferWorld, (∀ a, w.alloc = some a → RegistryInvariant a) →
        ∀ a2, (CmmBuffer.Free w).2.alloc = some a2 → RegistryInvariant a2) := by
  refine ⟨?_, ?_, ?_, ?_, ?_, ?_⟩
  · intro P fast a offset size mode hinv hW
    exact bufferMapViewCore_inv hinv hW
  · intro P fast impl a offset size mode ha hinv hwin hW
    exact viewMapViewCore_inv ha hinv hwin hW
  · intro view a hinv
    unfold CmmView.Reset
    cases view with
    | none => exact hinv
    | some impl =>
      dsimp only
      split
      · intro e he
        dsimp only at he
        exact hinv e (eraseFirstAddr_mem he)
      · exact hinv
  · intro P fast w offset size mode hinv hW
    exact MapViewW_alloc_inv hinv hW
  · intro P w size mode hinv a2 h
    unfold CmmBuffer.Allocate at h
    dsimp only at h
    split at h
    · rename_i val heq
      dsimp only at h
      by_cases hi : w.impl = true
      · rw [if_pos hi] at h
        exact hinv a2 h
      · rw [if_neg hi] at h
        simp at h
    · rename_i heq
      split at h
      · dsimp only at h
        rw [heq] at h
        exact absurd h (by simp)
      · rename_i hszle
        split at h
        · dsimp only at h
          rw [heq] at h
          exact absurd h (by simp)
        · rename_i phy vir hM
          refine MapViewW_alloc_inv ?_ (by simp only [W]; omega) a2 h
          intro a3 h3
          rw [Option.some.injEq] at h3
          subst h3
          intro e he
          simp at he
  · intro w hinv a2 h
    unfold CmmBuffer.Free at h
    split at h
    · exact hinv a2 h
    · split at h
      · exact hinv a2 h
      · split at h
        · exact hinv a2 h
        · split at h
          · exact hinv a2 h
          · dsimp only at h
            exact absurd h (by simp)

/-- C6 amended witness: preservation at a concrete in-range mapping on the
two-byte attached allocation. -/
theorem C6_registry_invariant_amended_witness :
    RegistryInvariant (bufferMapViewCore okP false attachAlloc2 0 2
      CacheMode.kNonCached).2 :=
  C6_registry_invariant_amended.1 okP false attachAlloc2 0 2
    CacheMode.kNonCached (by decide) (by decide)

end axsys
